import Mathlib

/-!
Verification of the dockge-companion container digest tracker.

The development shallowly embeds the tracker's core (image-reference
parsing, container scanning, the SQLite-backed history store, and the
reconciliation engine in `src/tracker.py`) as executable Lean
definitions, and proves the specification's claims about them.

Python strings are modelled as Lean `String` (a structure over
`List Char`, matching Python's sequence-of-code-points view), datetimes
as integer timestamps (seconds), and the SQLite database as an in-memory
record of the two tables, with the transactional write path modelled as
an all-or-nothing application of a list of write operations.
-/

namespace Dockge

/-! ### Python-style string primitives -/

/-- Model of Python `str.split(sep)` for a one-character separator,
on the underlying character list. `"a@@b".split('@') = ['a','','b']`. -/
def splitOnChar (sep : Char) : List Char → List (List Char)
  | [] => [[]]
  | c :: cs =>
    let rest := splitOnChar sep cs
    if c = sep then [] :: rest
    else
      match rest with
      | [] => [[c]]
      | p :: ps => (c :: p) :: ps

/-- Model of Python's `sub in s` substring test. -/
def pyContains (sub s : String) : Bool :=
  decide (sub.data <:+: s.data)

/-- Model of Python `s.rsplit(sep, 1)` for a one-character separator:
returns `some (before, after)` splitting at the last occurrence of
`sep`, or `none` when `sep` does not occur. -/
def breakOnLast (sep : Char) : List Char → Option (List Char × List Char)
  | [] => none
  | c :: cs =>
    match breakOnLast sep cs with
    | some (pre, post) => some (c :: pre, post)
    | none => if c = sep then some ([], cs) else none

/-- Model of Python `s.rstrip('Z')`: drop all trailing `'Z'` characters. -/
def rstripZ (l : List Char) : List Char :=
  (l.reverse.dropWhile (· = 'Z')).reverse

/-! ### `DockerScanner._parse_image_name` -/

/-- Embedding of `DockerScanner._parse_image_name` from
`src/docker_scanner.py`: empty input gives `("unknown", "unknown")`;
a reference containing `@sha256:` gives the part before the first `@`
with sentinel tag `"digest"`; otherwise a reference containing `:` is
split at the last colon; otherwise the tag defaults to `"latest"`. -/
def parse_image_name (image_string : String) : String × String :=
  if image_string = "" then ("unknown", "unknown")
  else if pyContains "@sha256:" image_string then
    (⟨(splitOnChar '@' image_string.data).headD []⟩, "digest")
  else
    match breakOnLast ':' image_string.data with
    | some (name, tag) => (⟨name⟩, ⟨tag⟩)
    | none => (image_string, "latest")

/-! ### `DockerScanner._parse_docker_timestamp` -/

/-- A wall-clock datetime as produced by Python's `datetime`. -/
structure PDateTime where
  year : Nat
  month : Nat
  day : Nat
  hour : Nat
  minute : Nat
  second : Nat
deriving DecidableEq, Repr

/-- Parse a list of decimal digits (nonempty, digits only). -/
def digitsToNat? (s : List Char) : Option Nat :=
  if s ≠ [] ∧ s.all (·.isDigit) then
    some (s.foldl (fun n c => n * 10 + (c.toNat - 48)) 0)
  else none

/-- A 1-2 digit numeric field constrained to `[lo, hi]`, as matched by
`strptime` directives such as `%m`, `%d`, `%H`, `%M`, `%S`. -/
def fieldNat? (s : List Char) (lo hi : Nat) : Option Nat :=
  if s.length ≤ 2 then
    (digitsToNat? s).bind (fun n => if lo ≤ n ∧ n ≤ hi then some n else none)
  else none

/-- Model of `datetime.strptime(s, "%Y-%m-%dT%H:%M:%S")`: a four-digit
year, then month/day/hour/minute/second fields in range, in the exact
ISO layout; `none` when the string does not match. -/
def strptimeISO (s : List Char) : Option PDateTime := do
  match splitOnChar 'T' s with
  | [d, t] =>
    match splitOnChar '-' d, splitOnChar ':' t with
    | [y, mo, da], [h, mi, se] => do
      let yn ← if y.length = 4 then digitsToNat? y else none
      let mon ← fieldNat? mo 1 12
      let dan ← fieldNat? da 1 31
      let hn ← fieldNat? h 0 23
      let minn ← fieldNat? mi 0 59
      let sen ← fieldNat? se 0 61
      pure ⟨yn, mon, dan, hn, minn, sen⟩
    | _, _ => none
  | _ => none

/-- The string preprocessing performed by
`DockerScanner._parse_docker_timestamp` before `strptime`: when the
string contains a `'.'` the fractional part is cut and a `'Z'` appended,
then all trailing `'Z'`s are stripped.  The source tries two formats,
`%Y-%m-%dT%H:%M:%SZ` and `%Y-%m-%dT%H:%M:%S`, but both are applied as
`fmt.rstrip('Z')` to `timestamp_str.rstrip('Z')`, so they collapse to
the single format modelled by `strptimeISO`. -/
def preprocessTs (timestamp_str : String) : List Char :=
  rstripZ
    (if pyContains "." timestamp_str then
       (splitOnChar '.' timestamp_str.data).headD [] ++ ['Z']
     else timestamp_str.data)

/-- Embedding of `DockerScanner._parse_docker_timestamp`: parse the
preprocessed string, falling back to the current time `now` when no
format matches (the source's `datetime.now()` fallback). -/
def parse_docker_timestamp (timestamp_str : String) (now : PDateTime) : PDateTime :=
  match strptimeISO (preprocessTs timestamp_str) with
  | some dt => dt
  | none => now

/-- An abstract seconds-count encoding of a `PDateTime`, used to fit
scanner-produced creation times into the integer-timestamp world of the
database layer. -/
def PDateTime.toTs (d : PDateTime) : Int :=
  ((((d.year * 12 + d.month) * 31 + d.day) * 24 + d.hour) * 60 + d.minute) * 60 + d.second

/-! ### Canonical records (`src/models.py`) -/

/-- Embedding of `ContainerInfo` from `src/models.py`; `created_at`
is an integer timestamp. -/
structure ContainerInfo where
  container_id : String
  container_name : String
  service_name : Option String
  image_name : String
  image_tag : String
  digest : String
  project_name : Option String
  created_at : Int
deriving DecidableEq, Repr

/-- Embedding of `DigestChange` from `src/models.py`. -/
structure DigestChange where
  container_name : String
  old_digest : String
  new_digest : String
  change_timestamp : Int
deriving DecidableEq, Repr

/-! ### `DockerScanner` (`src/docker_scanner.py`) -/

/-- The raw data the Docker runtime reports for one container: the
fields `_extract_container_info` reads from `container.attrs`,
`container.image` and the labels.  `image_id` / `image_short_id` are
`Option` to model the source's `hasattr` probing, and `broken` models a
container whose metadata access raises (the per-container `except`
path in `scan_containers` / `_extract_container_info`). -/
structure RawContainer where
  id : String
  name : String
  image : String
  repo_digests : List String
  image_id : Option String
  image_short_id : Option String
  labels : List (String × String)
  created : String
  broken : Bool
deriving DecidableEq, Repr

/-- Embedding of `DockerScanner._get_image_digest`: the first
repo-digest containing `@sha256:` yields its part after the first `@`;
otherwise a `sha256:`-prefixed image id is used as-is; otherwise the
short id is returned with a `short:` prefix; otherwise `none`. -/
def get_image_digest (raw : RawContainer) : Option String :=
  match raw.repo_digests.find? (fun rd => pyContains "@sha256:" rd) with
  | some rd => some ⟨(splitOnChar '@' rd.data).getD 1 []⟩
  | none =>
    match raw.image_id with
    | some iid =>
      if iid.startsWith "sha256:" then some iid
      else raw.image_short_id.map (fun sid => "short:" ++ sid)
    | none => raw.image_short_id.map (fun sid => "short:" ++ sid)

/-- Dictionary lookup on the label map. -/
def lookup_label (labels : List (String × String)) (key : String) : Option String :=
  (labels.find? (fun kv => decide (kv.1 = key))).map (·.2)

/-- Embedding of `DockerScanner._extract_service_name`: first match
among the well-known service label keys. -/
def extract_service_name (labels : List (String × String)) : Option String :=
  ["com.docker.compose.service", "com.docker.swarm.service.name", "service"].findSome?
    (lookup_label labels)

/-- Embedding of `DockerScanner._extract_project_name`: first match
among the well-known project label keys. -/
def extract_project_name (labels : List (String × String)) : Option String :=
  ["com.docker.compose.project", "com.docker.swarm.stack.name", "project"].findSome?
    (lookup_label labels)

/-- Embedding of `DockerScanner._extract_container_info`: `none` when
metadata access raises (`broken`) or when no non-empty digest can be
resolved (the source's `if not digest: return None` guard, which also
rejects an empty digest string); otherwise the canonical record. -/
def extract_container_info (now : PDateTime) (raw : RawContainer) : Option ContainerInfo :=
  if raw.broken then none
  else
    let nt := parse_image_name raw.image
    match get_image_digest raw with
    | none => none
    | some digest =>
      if digest.isEmpty then none
      else
        some { container_id := raw.id
               container_name := raw.name
               service_name := extract_service_name raw.labels
               image_name := nt.1
               image_tag := nt.2
               digest := digest
               project_name := extract_project_name raw.labels
               created_at := (parse_docker_timestamp raw.created now).toTs }

/-- Embedding of `DockerScanner.scan_containers`: extraction is
attempted per container; a failing container is skipped (`continue`)
and a container reported as `None` is not appended. -/
def scan_containers (now : PDateTime) (raws : List RawContainer) : List ContainerInfo :=
  raws.filterMap (extract_container_info now)

/-! ### `DatabaseManager` (`src/database.py`)

The two SQLite tables are modelled as in-memory lists of rows in
insertion order.  A `store_container_info` call is one transaction:
its writes are applied all-or-nothing, with the `UNIQUE(container_name,
scan_timestamp)` constraint on the `containers` table as the possible
storage error (`sqlite3.IntegrityError`), which `get_connection` turns
into a rollback plus a re-raise. -/

/-- A row of the `containers` table: a `ContainerInfo` plus the
`scan_timestamp` column. -/
structure SnapshotRow extends ContainerInfo where
  scan_timestamp : Int
deriving DecidableEq, Repr

/-- The row inserted for `ci` at scan time `ts`. -/
def SnapshotRow.ofInfo (ci : ContainerInfo) (ts : Int) : SnapshotRow :=
  { toContainerInfo := ci, scan_timestamp := ts }

/-- The persistent state: the `containers` table and the
`digest_history` table, each in insertion order. -/
structure DBState where
  containers : List SnapshotRow
  history : List DigestChange
deriving DecidableEq, Repr

/-- One SQL `INSERT` executed inside a transaction. -/
inductive WriteOp where
  | insertSnapshot (r : SnapshotRow)
  | insertEvent (e : DigestChange)
deriving DecidableEq, Repr

/-- Apply one insert; inserting a snapshot that collides on
`(container_name, scan_timestamp)` violates the table's `UNIQUE`
constraint and fails. -/
def applyOp (db : DBState) (op : WriteOp) : Except String DBState :=
  match op with
  | .insertSnapshot r =>
    if db.containers.any (fun q =>
        decide (q.container_name = r.container_name ∧ q.scan_timestamp = r.scan_timestamp)) then
      .error "UNIQUE constraint failed: containers.container_name, containers.scan_timestamp"
    else .ok { db with containers := db.containers ++ [r] }
  | .insertEvent e => .ok { db with history := db.history ++ [e] }

/-- Apply the inserts of one transaction in order, stopping at the
first error. -/
def applyOps (db : DBState) : List WriteOp → Except String DBState
  | [] => .ok db
  | op :: ops =>
    match applyOp db op with
    | .ok db' => applyOps db' ops
    | .error e => .error e

/-- Run a list of inserts as one transaction: on success the combined
effect is committed, on any error the connection rolls back and the
persistent state is unchanged, with the error surfaced to the caller
(second component). -/
def runTransaction (db : DBState) (ops : List WriteOp) : DBState × Option String :=
  match applyOps db ops with
  | .ok db' => (db', none)
  | .error e => (db, some e)

/-- Embedding of the `SELECT digest FROM containers WHERE
container_name = ? ORDER BY scan_timestamp DESC LIMIT 1` lookup in
`store_container_info`: the stored row for `name` with the maximal
`scan_timestamp` (the fetched row carries only the digest, but the
whole row is returned here for convenience). -/
def latestFor (rows : List SnapshotRow) (name : String) : Option SnapshotRow :=
  match rows with
  | [] => none
  | r :: rest =>
    if r.container_name = name then
      match latestFor rest name with
      | none => some r
      | some b => if b.scan_timestamp ≤ r.scan_timestamp then some r else some b
    else latestFor rest name

/-- The digest-change events `store_container_info` records for this
call: one event when a most recent prior row exists and its digest
differs from the incoming digest (`_record_digest_change`), none
otherwise. -/
def detected_changes (db : DBState) (ci : ContainerInfo) (ts : Int) : List DigestChange :=
  match latestFor db.containers ci.container_name with
  | some prev =>
    if prev.digest ≠ ci.digest then
      [{ container_name := ci.container_name, old_digest := prev.digest,
         new_digest := ci.digest, change_timestamp := ts }]
    else []
  | none => []

/-- Embedding of `DatabaseManager.store_container_info`: look up the
most recent prior snapshot, record a digest-change event if the digest
differs, insert the new snapshot row, and commit — all in one
transaction. -/
def store_container_info (db : DBState) (ci : ContainerInfo) (ts : Int) :
    DBState × Option String :=
  runTransaction db
    ((detected_changes db ci ts).map .insertEvent ++
      [.insertSnapshot (.ofInfo ci ts)])

/-- Newest-first ordering on digest-change events, as produced by the
source's `ORDER BY change_timestamp DESC`. -/
def tsDesc (a b : DigestChange) : Prop :=
  b.change_timestamp ≤ a.change_timestamp

instance : DecidableRel tsDesc := fun a b =>
  inferInstanceAs (Decidable (b.change_timestamp ≤ a.change_timestamp))

instance : IsTotal DigestChange tsDesc :=
  ⟨fun a b => (le_total a.change_timestamp b.change_timestamp).symm⟩

instance : IsTrans DigestChange tsDesc :=
  ⟨fun _ _ _ hab hbc => le_trans hbc hab⟩

/-- Embedding of `DatabaseManager.get_digest_history`: all events for
the name, newest first. -/
def get_digest_history (db : DBState) (container_name : String) : List DigestChange :=
  List.insertionSort tsDesc
    (db.history.filter (fun e => decide (e.container_name = container_name)))

/-- Embedding of `DatabaseManager.get_recent_changes`: the source
filters with `change_timestamp > datetime('now', '-{hours} hours')`,
i.e. strictly newer than `now - hours*3600`, and orders newest first. -/
def get_recent_changes (db : DBState) (now : Int) (hours : Int) : List DigestChange :=
  List.insertionSort tsDesc
    (db.history.filter (fun e => decide (now - hours * 3600 < e.change_timestamp)))

/-- Code-point lexicographic comparison on character lists, modelling
the byte ordering SQLite's default BINARY collation applies to the
UTF-8 encoded `container_name` column in `ORDER BY`. -/
def strLeB : List Char → List Char → Bool
  | [], _ => true
  | _ :: _, [] => false
  | x :: xs, y :: ys =>
    if x.toNat < y.toNat then true
    else if y.toNat < x.toNat then false
    else strLeB xs ys

/-- The `ORDER BY container_name` ordering. -/
def nameLe (a b : String) : Prop := strLeB a.data b.data = true

instance : DecidableRel nameLe := fun a b =>
  inferInstanceAs (Decidable (strLeB a.data b.data = true))

/-- Embedding of `DatabaseManager.get_latest_containers`: for every
distinct container name, the row with the maximal scan timestamp,
ordered by container name, projected back to `ContainerInfo`. -/
def get_latest_containers (db : DBState) : List ContainerInfo :=
  ((List.insertionSort nameLe ((db.containers.map (·.container_name)).dedup)).filterMap
    (latestFor db.containers)).map (·.toContainerInfo)

/-- Well-formedness maintained by the `containers` table's
`UNIQUE(container_name, scan_timestamp)` constraint. -/
def DBWellFormed (db : DBState) : Prop :=
  (db.containers.map (fun r => (r.container_name, r.scan_timestamp))).Nodup

instance : DecidablePred DBWellFormed := fun db => by
  unfold DBWellFormed; infer_instance

/-- Specification-side notion of "the most recent prior stored snapshot
for a name": a stored row for that name whose scan timestamp is at
least that of every stored row for the same name. -/
def MostRecentPrior (rows : List SnapshotRow) (name : String) (p : SnapshotRow) : Prop :=
  p ∈ rows ∧ p.container_name = name ∧
    ∀ q ∈ rows, q.container_name = name → q.scan_timestamp ≤ p.scan_timestamp

instance (rows : List SnapshotRow) (name : String) (p : SnapshotRow) :
    Decidable (MostRecentPrior rows name p) :=
  inferInstanceAs (Decidable (_ ∧ _ ∧ _))

/-! ### `ContainerTracker` (`src/tracker.py`)

The external collaborators are passed in as pure capabilities: the
scanner's outcome is an `Except` value (`.error` models the scan
raising, e.g. `APIError`), the remote-digest resolver is a function to
`Option String` (`get_remote_image_digest` never raises and returns
`None` on failure), and the running-state probe is a boolean
function (`is_container_running` never raises). -/

/-- Result of `ContainerTracker.scan_and_update`, one constructor per
distinct result dictionary the source builds: the normal success
dictionary, the zero-containers success dictionary (which carries only
the counters), and the failure dictionary. -/
inductive ScanUpdateResult where
  | ok (containers_scanned changes_detected new_containers : Nat) (scan_timestamp : Int)
      (scanned_container_names changed_container_names new_container_names : List String)
  | okEmpty (scan_timestamp : Int)
  | err (error : String) (scan_timestamp : Int)
deriving DecidableEq, Repr

/-- The per-container loop of `scan_and_update`: append the name to the
scanned list, store the snapshot (a storage error raises and aborts the
loop, surfacing as `.error` with the database as committed so far), and
classify against the pre-scan `previous_by_name` lookup. -/
def scanLoop (lookup : String → Option ContainerInfo) (ts : Int) (db : DBState) :
    List ContainerInfo →
      Except (String × DBState) (DBState × List String × List String × List String)
  | [] => .ok (db, [], [], [])
  | c :: rest =>
    match store_container_info db c ts with
    | (dbe, some e) => .error (e, dbe)
    | (db', none) =>
      match scanLoop lookup ts db' rest with
      | .error r => .error r
      | .ok (dbf, sc, ch, nw) =>
        match lookup c.container_name with
        | none => .ok (dbf, c.container_name :: sc, ch, c.container_name :: nw)
        | some prev =>
          if prev.digest ≠ c.digest then
            .ok (dbf, c.container_name :: sc, c.container_name :: ch, nw)
          else .ok (dbf, c.container_name :: sc, ch, nw)

/-- Embedding of `ContainerTracker.scan_and_update`: scan (the outcome
is the `scanRes` argument), return the all-zero success result when no
containers were found, otherwise store every scanned snapshot at the
one scan timestamp and classify each against the pre-scan latest
snapshots; any raised error is caught and converted to the failure
result. -/
def scan_and_update (db : DBState) (scanRes : Except String (List ContainerInfo))
    (ts : Int) : ScanUpdateResult × DBState :=
  match scanRes with
  | .error e => (.err e ts, db)
  | .ok [] => (.okEmpty ts, db)
  | .ok current =>
    let previous := get_latest_containers db
    let lookup := fun name => previous.find? (fun p => decide (p.container_name = name))
    match scanLoop lookup ts db current with
    | .error (e, dbe) => (.err e ts, dbe)
    | .ok (dbf, sc, ch, nw) =>
      (.ok current.length ch.length nw.length ts sc ch nw, dbf)

/-- Embedding of `ContainerTracker.initialize` (named `tracker_init`
here): `False` when the runtime is unavailable or anything raises
(a scan failure, or a storage error while persisting — snapshots stored
before the failing one stay committed), `True` otherwise, including
when no containers are found. -/
def tracker_init (avail : Bool) (scanRes : Except String (List ContainerInfo))
    (db : DBState) (ts : Int) : Bool × DBState :=
  if !avail then (false, db)
  else
    match scanRes with
    | .error _ => (false, db)
    | .ok [] => (true, db)
    | .ok cs => storeAll db cs ts
where
  storeAll (db : DBState) : List ContainerInfo → Int → Bool × DBState
    | [], _ => (true, db)
    | c :: rest, ts =>
      match store_container_info db c ts with
      | (dbe, some _) => (false, dbe)
      | (db', none) => storeAll db' rest ts

/-- The per-container classification loop of
`ContainerTracker.compare_with_previous`, preserving the source's
priority: change events first, then recent creation, else unchanged. -/
def classifyContainers (recent : List DigestChange) (cutoff : Int) :
    List ContainerInfo →
      List ContainerInfo × List (ContainerInfo × List DigestChange) × List ContainerInfo
  | [] => ([], [], [])
  | c :: rest =>
    let acc := classifyContainers recent cutoff rest
    let cchs := recent.filter (fun e => decide (e.container_name = c.container_name))
    if cchs ≠ [] then (acc.1, (c, cchs) :: acc.2.1, acc.2.2)
    else if cutoff < c.created_at then (acc.1, acc.2.1, c :: acc.2.2)
    else (c :: acc.1, acc.2.1, acc.2.2)

/-- Result of `ContainerTracker.compare_with_previous` (success
shape). -/
structure CompareResult where
  success : Bool
  comparison_period_hours : Int
  total_containers : Nat
  unchanged : List ContainerInfo
  changed : List (ContainerInfo × List DigestChange)
  new_containers : List ContainerInfo
  total_changes : Nat
deriving DecidableEq, Repr

/-- Embedding of `ContainerTracker.compare_with_previous`: partition
the current latest snapshots by recent change events and creation time
against `cutoff = now - hours_back * 3600`. -/
def compare_with_previous (db : DBState) (now : Int) (hours_back : Int) : CompareResult :=
  let current := get_latest_containers db
  let recent := get_recent_changes db now hours_back
  let parts := classifyContainers recent (now - hours_back * 3600) current
  { success := true
    comparison_period_hours := hours_back
    total_containers := current.length
    unchanged := parts.1
    changed := parts.2.1
    new_containers := parts.2.2
    total_changes := recent.length }

/-- One entry of the list returned by
`ContainerTracker.get_container_status`. -/
structure StatusEntry where
  container_name : String
  service_name : Option String
  image : String
  digest : String
  digest_short : String
  project_name : Option String
  is_running : Bool
  last_seen : Int
  change_count : Nat
  last_change : Option Int
deriving DecidableEq, Repr

/-- Embedding of `ContainerTracker.get_container_status`: one entry per
latest snapshot, enriched with the digest history and the best-effort
running probe; the operation returns a bare list (and the source's
`except` path returns the empty list). -/
def get_container_status (db : DBState) (probe : String → Bool) : List StatusEntry :=
  (get_latest_containers db).map fun c =>
    let recent := get_digest_history db c.container_name
    { container_name := c.container_name
      service_name := c.service_name
      image := c.image_name ++ ":" ++ c.image_tag
      digest := c.digest
      digest_short := if c.digest.isEmpty then "unknown" else c.digest.take 12
      project_name := c.project_name
      is_running := probe c.container_name
      last_seen := c.created_at
      change_count := recent.length
      last_change := recent.head?.map (·.change_timestamp) }

/-- One entry of the update-check result, as built by
`DockerScanner.check_container_updates`. -/
structure UpdateInfo where
  container_name : String
  image : String
  current_digest : String
  remote_digest : Option String
  update_available : Bool
  error : Option String
deriving DecidableEq, Repr

/-- Embedding of `DockerScanner.check_container_updates`: an unresolved
remote digest yields `update_available = False` with the explanatory
error; a resolved one yields `update_available` exactly when it differs
from the stored digest, with no error. -/
def check_container_updates (resolver : String → String → Option String)
    (ci : ContainerInfo) : UpdateInfo :=
  match resolver ci.image_name ci.image_tag with
  | none =>
    { container_name := ci.container_name
      image := ci.image_name ++ ":" ++ ci.image_tag
      current_digest := ci.digest
      remote_digest := none
      update_available := false
      error := some "Could not fetch remote digest" }
  | some remote =>
    { container_name := ci.container_name
      image := ci.image_name ++ ":" ++ ci.image_tag
      current_digest := ci.digest
      remote_digest := some remote
      update_available := ci.digest != remote
      error := none }

/-- Result of `ContainerTracker.check_for_updates` (success shape). -/
structure CheckUpdatesResult where
  success : Bool
  total_containers : Nat
  updates_available : Nat
  containers : List UpdateInfo
  errors : List String
deriving DecidableEq, Repr

/-- Embedding of `ContainerTracker.check_for_updates`: check every
latest snapshot; a per-item truthy (non-empty) error string is also
collected, prefixed by the container name, into the aggregate `errors`
list, and the overall result reports success. -/
def check_for_updates (db : DBState) (resolver : String → String → Option String) :
    CheckUpdatesResult :=
  let cs := get_latest_containers db
  if cs.isEmpty then
    { success := true, total_containers := 0, updates_available := 0,
      containers := [], errors := [] }
  else
    let results := cs.map (check_container_updates resolver)
    { success := true
      total_containers := cs.length
      updates_available := results.countP (·.update_available)
      containers := results
      errors := results.filterMap (fun u =>
        match u.error with
        | some e => if e.isEmpty then none else some (u.container_name ++ ": " ++ e)
        | none => none) }

/-! ### Dynamic view of the operation results

The source returns untyped Python values (dictionaries, booleans,
lists).  `PyVal` renders each operation's Lean result as the Python
value the source builds, so that statements about the *shape* of the
results — in particular the uniform `\x7bsuccess: bool, ...\x7d` contract —
can be made precise. -/

inductive PyVal where
  | none
  | bool (b : Bool)
  | int (n : Int)
  | str (s : String)
  | list (xs : List PyVal)
  | dict (kvs : List (String × PyVal))

/-- Whether a Python value is a dictionary carrying a boolean
`success` key, i.e. has the uniform result shape. -/
def hasSuccessKey : PyVal → Bool
  | .dict kvs => kvs.any (fun kv =>
      kv.1 = "success" && match kv.2 with | .bool _ => true | _ => false)
  | _ => false

/-- Render an `Option String` as Python `None` / `str`. -/
def optStrToPy : Option String → PyVal
  | Option.none => .none
  | Option.some s => .str s

/-- Render an `Option Int` as Python `None` / datetime. -/
def optIntToPy : Option Int → PyVal
  | Option.none => .none
  | Option.some n => .int n

/-- The dictionary `scan_and_update` returns, key for key. -/
def scanUpdateResultToPy : ScanUpdateResult → PyVal
  | .ok cs cd nc ts sc ch nw =>
    .dict [("success", .bool true), ("containers_scanned", .int (cs : Int)),
      ("changes_detected", .int (cd : Int)), ("new_containers", .int (nc : Int)),
      ("scan_timestamp", .int ts), ("scanned_container_names", .list (sc.map .str)),
      ("changed_container_names", .list (ch.map .str)),
      ("new_container_names", .list (nw.map .str))]
  | .okEmpty ts =>
    .dict [("success", .bool true), ("containers_scanned", .int 0),
      ("changes_detected", .int 0), ("new_containers", .int 0),
      ("scan_timestamp", .int ts)]
  | .err e ts =>
    .dict [("success", .bool false), ("error", .str e), ("scan_timestamp", .int ts)]

/-- A `ContainerInfo` object held inside a result, rendered field by
field. -/
def containerInfoToPy (c : ContainerInfo) : PyVal :=
  .dict [("container_id", .str c.container_id), ("container_name", .str c.container_name),
    ("service_name", optStrToPy c.service_name), ("image_name", .str c.image_name),
    ("image_tag", .str c.image_tag), ("digest", .str c.digest),
    ("project_name", optStrToPy c.project_name), ("created_at", .int c.created_at)]

/-- A `DigestChange` object held inside a result. -/
def digestChangeToPy (e : DigestChange) : PyVal :=
  .dict [("container_name", .str e.container_name), ("old_digest", .str e.old_digest),
    ("new_digest", .str e.new_digest), ("change_timestamp", .int e.change_timestamp)]

/-- The dictionary `compare_with_previous` returns. -/
def compareResultToPy (r : CompareResult) : PyVal :=
  .dict [("success", .bool r.success),
    ("comparison_period_hours", .int r.comparison_period_hours),
    ("total_containers", .int (r.total_containers : Int)),
    ("unchanged", .list (r.unchanged.map containerInfoToPy)),
    ("changed", .list (r.changed.map (fun p =>
      .dict [("container", containerInfoToPy p.1),
        ("changes", .list (p.2.map digestChangeToPy))]))),
    ("new_containers", .list (r.new_containers.map containerInfoToPy)),
    ("total_changes", .int (r.total_changes : Int))]

/-- One status dictionary inside the `get_container_status` list. -/
def statusEntryToPy (s : StatusEntry) : PyVal :=
  .dict [("container_name", .str s.container_name),
    ("service_name", optStrToPy s.service_name), ("image", .str s.image),
    ("digest", .str s.digest), ("digest_short", .str s.digest_short),
    ("project_name", optStrToPy s.project_name), ("is_running", .bool s.is_running),
    ("last_seen", .int s.last_seen), ("change_count", .int (s.change_count : Int)),
    ("last_change", optIntToPy s.last_change)]

/-- One update-info dictionary inside the `check_for_updates` result. -/
def updateInfoToPy (u : UpdateInfo) : PyVal :=
  .dict [("container_name", .str u.container_name), ("image", .str u.image),
    ("current_digest", .str u.current_digest),
    ("remote_digest", optStrToPy u.remote_digest),
    ("update_available", .bool u.update_available), ("error", optStrToPy u.error)]

/-- The dictionary `check_for_updates` returns. -/
def checkUpdatesResultToPy (r : CheckUpdatesResult) (check_timestamp : Int) : PyVal :=
  .dict [("success", .bool r.success),
    ("total_containers", .int (r.total_containers : Int)),
    ("updates_available", .int (r.updates_available : Int)),
    ("containers", .list (r.containers.map updateInfoToPy)),
    ("errors", .list (r.errors.map .str)),
    ("check_timestamp", .int check_timestamp)]

/-- The Python value `ContainerTracker.initialize` returns: a bare
boolean (`return True` / `return False`). -/
def trackerInitToPy (avail : Bool) (scanRes : Except String (List ContainerInfo))
    (db : DBState) (ts : Int) : PyVal :=
  .bool (tracker_init avail scanRes db ts).1

/-- The Python value `ContainerTracker.get_container_status` returns: a
bare list of status dictionaries. -/
def containerStatusToPy (db : DBState) (probe : String → Bool) : PyVal :=
  .list ((get_container_status db probe).map statusEntryToPy)

/-! ### Specification-side predicates -/

/-- The boolean condition under which the `scan_and_update` loop counts
a container as changed: the pre-scan lookup finds a prior record and
its digest differs. -/
def chBool (lookup : String → Option ContainerInfo) (c : ContainerInfo) : Bool :=
  match lookup c.container_name with
  | some prev => decide (prev.digest ≠ c.digest)
  | none => false

/-- The boolean condition under which the `scan_and_update` loop counts
a container as new: the pre-scan lookup finds no prior record. -/
def nwBool (lookup : String → Option ContainerInfo) (c : ContainerInfo) : Bool :=
  (lookup c.container_name).isNone

/-- Specification-side: a scanned container is *new* when its name is
absent from the pre-scan latest-snapshot set. -/
def IsNewName (previous : List ContainerInfo) (c : ContainerInfo) : Prop :=
  ∀ p ∈ previous, p.container_name ≠ c.container_name

instance (previous : List ContainerInfo) (c : ContainerInfo) :
    Decidable (IsNewName previous c) :=
  inferInstanceAs (Decidable (∀ p ∈ previous, _ ≠ _))

/-- Specification-side: a scanned container is *changed* when some
snapshot in the pre-scan latest-snapshot set has its name with a
different digest. -/
def IsChangedName (previous : List ContainerInfo) (c : ContainerInfo) : Prop :=
  ∃ p ∈ previous, p.container_name = c.container_name ∧ p.digest ≠ c.digest

instance (previous : List ContainerInfo) (c : ContainerInfo) :
    Decidable (IsChangedName previous c) :=
  inferInstanceAs (Decidable (∃ p ∈ previous, _ ∧ _))

/-- Specification-side: the container has at least one digest-change
event inside the comparison window used by `compare_with_previous`
(strictly after `now - hours_back * 3600`, mirroring the store's
window filter). -/
def HasWindowEvent (db : DBState) (now hours_back : Int) (c : ContainerInfo) : Prop :=
  ∃ e ∈ db.history, e.container_name = c.container_name ∧
    now - hours_back * 3600 < e.change_timestamp

instance (db : DBState) (now hours_back : Int) (c : ContainerInfo) :
    Decidable (HasWindowEvent db now hours_back c) :=
  inferInstanceAs (Decidable (∃ e ∈ db.history, _ ∧ _))

/-! ### Sample data used by the witnesses -/

/-- A small canonical container record. -/
def exInfo : ContainerInfo :=
  { container_id := "aaa", container_name := "web", service_name := none,
    image_name := "nginx", image_tag := "latest", digest := "sha256:a",
    project_name := none, created_at := 0 }

/-- A second container record with a different name. -/
def exInfoB : ContainerInfo :=
  { container_id := "bbb", container_name := "db", service_name := none,
    image_name := "postgres", image_tag := "16", digest := "sha256:p",
    project_name := none, created_at := 0 }

/-- A database holding one snapshot of `exInfo` stored at time 0. -/
def exDb : DBState :=
  ⟨[SnapshotRow.ofInfo exInfo 0], []⟩

/-- `exInfo` after its image digest changed. -/
def exInfoChanged : ContainerInfo :=
  { exInfo with digest := "sha256:b" }

/-- A third container record, whose registry lookup will fail in the
update-check witness. -/
def exInfoC : ContainerInfo :=
  { container_id := "ccc", container_name := "api", service_name := none,
    image_name := "ghcr.io/acme/api", image_tag := "v2", digest := "sha256:c",
    project_name := none, created_at := 0 }

/-- A database tracking three containers. -/
def exDb3 : DBState :=
  ⟨[SnapshotRow.ofInfo exInfo 0, SnapshotRow.ofInfo exInfoB 0, SnapshotRow.ofInfo exInfoC 0], []⟩

/-- A remote-digest resolver that succeeds for two images and fails for
the third. -/
def exResolver : String → String → Option String :=
  fun n _ =>
    if n = "nginx" then some "sha256:zz"
    else if n = "postgres" then some "sha256:p"
    else none

/-- A healthy raw container as reported by the runtime. -/
def exRaw : RawContainer :=
  { id := "aaa", name := "web", image := "nginx:latest",
    repo_digests := ["nginx@sha256:deadbeef"], image_id := some "sha256:1111",
    image_short_id := some "1111", labels := [("com.docker.compose.service", "web")],
    created := "2024-01-02T03:04:05Z", broken := false }

/-- A raw container whose metadata access raises. -/
def exRawBroken : RawContainer :=
  { exRaw with id := "ccc", name := "crashy", broken := true }

/-! ### Lemmas about the string primitives -/

theorem splitOnChar_ne_nil (sep : Char) (l : List Char) : splitOnChar sep l ≠ [] := by
  induction l with
  | nil => simp [splitOnChar]
  | cons c cs ih =>
    simp only [splitOnChar]
    split
    · simp
    · cases h : splitOnChar sep cs with
      | nil => exact absurd h ih
      | cons p ps => simp

theorem headD_splitOnChar (sep : Char) (l : List Char) :
    (splitOnChar sep l).headD [] = l.takeWhile (fun c => decide (c ≠ sep)) := by
  induction l with
  | nil => simp [splitOnChar]
  | cons c cs ih =>
    simp only [splitOnChar]
    by_cases hc : c = sep
    · simp [hc]
    · rw [if_neg hc]
      cases h : splitOnChar sep cs with
      | nil => exact absurd h (splitOnChar_ne_nil sep cs)
      | cons p ps =>
        rw [h] at ih
        simp only [List.headD_cons] at ih
        simp [List.takeWhile, hc, ih]

theorem breakOnLast_eq_none (sep : Char) (l : List Char) :
    breakOnLast sep l = none ↔ sep ∉ l := by
  induction l with
  | nil => simp [breakOnLast]
  | cons c cs ih =>
    simp only [breakOnLast]
    cases h : breakOnLast sep cs with
    | some pr =>
      obtain ⟨pre, post⟩ := pr
      have hmem : sep ∈ cs := by
        by_contra hmem
        rw [ih.mpr hmem] at h
        exact Option.noConfusion h
      simp [hmem]
    | none =>
      rw [ih] at h
      by_cases hc : c = sep
      · simp [hc]
      · rw [if_neg hc]
        refine iff_of_true rfl ?_
        simp only [List.mem_cons]
        rintro (hmem | hmem)
        · exact hc hmem.symm
        · exact h hmem

theorem breakOnLast_eq_some (sep : Char) (l a b : List Char)
    (h : breakOnLast sep l = some (a, b)) : l = a ++ sep :: b ∧ sep ∉ b := by
  induction l generalizing a b with
  | nil => simp [breakOnLast] at h
  | cons c cs ih =>
    simp only [breakOnLast] at h
    cases hr : breakOnLast sep cs with
    | some pr =>
      obtain ⟨pre, post⟩ := pr
      rw [hr] at h
      simp only [Option.some.injEq, Prod.mk.injEq] at h
      obtain ⟨ha, hb⟩ := h
      obtain ⟨hcs, hpost⟩ := ih pre post hr
      subst ha hb
      exact ⟨by simp [hcs], hpost⟩
    | none =>
      rw [hr] at h
      by_cases hc : c = sep
      · rw [if_pos hc] at h
        simp only [Option.some.injEq, Prod.mk.injEq] at h
        obtain ⟨ha, hb⟩ := h
        subst ha hb
        exact ⟨by simp [hc], (breakOnLast_eq_none sep cs).mp hr⟩
      · rw [if_neg hc] at h
        exact Option.noConfusion h

theorem mem_of_breakOnLast_some (sep : Char) (l : List Char) (pr : List Char × List Char)
    (h : breakOnLast sep l = some pr) : sep ∈ l := by
  obtain ⟨a, b⟩ := pr
  obtain ⟨he, _⟩ := breakOnLast_eq_some sep l a b h
  rw [he]
  simp

/-! ### Lemmas about the history store -/

@[simp]
theorem ofInfo_container_name (ci : ContainerInfo) (ts : Int) :
    (SnapshotRow.ofInfo ci ts).container_name = ci.container_name := rfl

@[simp]
theorem ofInfo_scan_timestamp (ci : ContainerInfo) (ts : Int) :
    (SnapshotRow.ofInfo ci ts).scan_timestamp = ts := rfl

@[simp]
theorem ofInfo_digest (ci : ContainerInfo) (ts : Int) :
    (SnapshotRow.ofInfo ci ts).digest = ci.digest := rfl

@[simp]
theorem ofInfo_toContainerInfo (ci : ContainerInfo) (ts : Int) :
    (SnapshotRow.ofInfo ci ts).toContainerInfo = ci := rfl

theorem latestFor_eq_none_iff (rows : List SnapshotRow) (name : String) :
    latestFor rows name = none ↔ ∀ r ∈ rows, r.container_name ≠ name := by
  induction rows with
  | nil => simp [latestFor]
  | cons r rest ih =>
    simp only [latestFor]
    by_cases hr : r.container_name = name
    · rw [if_pos hr]
      refine iff_of_false ?_ (fun hall => hall r (by simp) hr)
      cases latestFor rest name with
      | none => simp
      | some b =>
        dsimp only
        split <;> simp
    · rw [if_neg hr]
      rw [ih]
      constructor
      · intro hall q hq hqn
        rcases List.mem_cons.mp hq with h | h
        · exact hr (h ▸ hqn)
        · exact hall q h hqn
      · intro hall q hq hqn
        exact hall q (List.mem_cons_of_mem r hq) hqn

theorem latestFor_isMostRecent (rows : List SnapshotRow) (name : String)
    (p : SnapshotRow) (h : latestFor rows name = some p) :
    MostRecentPrior rows name p := by
  induction rows generalizing p with
  | nil => simp [latestFor] at h
  | cons r rest ih =>
    simp only [latestFor] at h
    by_cases hr : r.container_name = name
    · rw [if_pos hr] at h
      revert h
      cases hb : latestFor rest name with
      | none =>
        intro h
        obtain rfl : r = p := by simpa using h
        refine ⟨by simp, hr, ?_⟩
        intro q hq hqn
        rcases List.mem_cons.mp hq with hcase | hcase
        · exact le_of_eq (by rw [hcase])
        · exact absurd hqn ((latestFor_eq_none_iff rest name).mp hb q hcase)
      | some b =>
        intro h
        dsimp only at h
        obtain ⟨hbmem, hbname, hbmax⟩ := ih b hb
        by_cases hle : b.scan_timestamp ≤ r.scan_timestamp
        · rw [if_pos hle] at h
          obtain rfl : r = p := by simpa using h
          refine ⟨by simp, hr, ?_⟩
          intro q hq hqn
          rcases List.mem_cons.mp hq with hcase | hcase
          · exact le_of_eq (by rw [hcase])
          · exact le_trans (hbmax q hcase hqn) hle
        · rw [if_neg hle] at h
          obtain rfl : b = p := by simpa using h
          refine ⟨List.mem_cons_of_mem r hbmem, hbname, ?_⟩
          intro q hq hqn
          rcases List.mem_cons.mp hq with hcase | hcase
          · exact hcase ▸ le_of_lt (lt_of_not_le hle)
          · exact hbmax q hcase hqn
    · rw [if_neg hr] at h
      obtain ⟨hmem, hname, hmax⟩ := ih p h
      refine ⟨List.mem_cons_of_mem r hmem, hname, ?_⟩
      intro q hq hqn
      rcases List.mem_cons.mp hq with hcase | hcase
      · exact absurd (hcase ▸ hqn) hr
      · exact hmax q hcase hqn

theorem mostRecentPrior_unique {rows : List SnapshotRow}
    (hwf : (rows.map (fun r => (r.container_name, r.scan_timestamp))).Nodup)
    {name : String} {p q : SnapshotRow}
    (hp : MostRecentPrior rows name p) (hq : MostRecentPrior rows name q) : p = q := by
  have hts : p.scan_timestamp = q.scan_timestamp :=
    le_antisymm (hq.2.2 p hp.1 hp.2.1) (hp.2.2 q hq.1 hq.2.1)
  exact List.inj_on_of_nodup_map hwf hp.1 hq.1
    (by rw [hp.2.1, hq.2.1, hts])

theorem detected_changes_cases (db : DBState) (ci : ContainerInfo) (ts : Int) :
    detected_changes db ci ts = [] ∨ ∃ e, detected_changes db ci ts = [e] := by
  cases h : latestFor db.containers ci.container_name with
  | none => exact Or.inl (by simp [detected_changes, h])
  | some prev =>
    by_cases hd : prev.digest = ci.digest
    · exact Or.inl (by simp [detected_changes, h, hd])
    · refine Or.inr ⟨(⟨ci.container_name, prev.digest, ci.digest, ts⟩ : DigestChange), ?_⟩
      simp [detected_changes, h, hd]

theorem store_container_info_ok (db : DBState) (ci : ContainerInfo) (ts : Int)
    (hfresh : ∀ q ∈ db.containers,
      ¬(q.container_name = ci.container_name ∧ q.scan_timestamp = ts)) :
    store_container_info db ci ts =
      ({ containers := db.containers ++ [SnapshotRow.ofInfo ci ts],
         history := db.history ++ detected_changes db ci ts }, none) := by
  have hsnap : ∀ st : DBState, st.containers = db.containers →
      applyOp st (.insertSnapshot (.ofInfo ci ts)) =
        .ok { st with containers := st.containers ++ [SnapshotRow.ofInfo ci ts] } := by
    intro st hst
    have hcond : (st.containers.any (fun q =>
        decide (q.container_name = ci.container_name ∧ q.scan_timestamp = ts))) = false := by
      rw [hst]
      simp only [List.any_eq_false, decide_eq_true_eq]
      intro q hq
      simpa using hfresh q hq
    simp [applyOp, hcond]
    rw [hst]
    intro q hq h1 h2
    exact hfresh q hq ⟨h1, h2⟩
  unfold store_container_info runTransaction
  rcases detected_changes_cases db ci ts with hdc | ⟨e, hdc⟩ <;> rw [hdc]
  · simp only [List.map_nil, List.nil_append, applyOps]
    rw [hsnap db rfl]
    show ((⟨db.containers ++ [SnapshotRow.ofInfo ci ts], db.history⟩ : DBState),
      (none : Option String)) = _
    simp
  · simp only [List.map_cons, List.map_nil, List.nil_append, List.singleton_append,
      applyOps]
    rw [show applyOp db (.insertEvent e) = .ok ⟨db.containers, db.history ++ [e]⟩ from rfl]
    show (match applyOps ⟨db.containers, db.history ++ [e]⟩
        [.insertSnapshot (.ofInfo ci ts)] with
      | .ok db' => (db', (none : Option String))
      | .error e => (db, some e)) = _
    simp only [applyOps]
    rw [hsnap ⟨db.containers, db.history ++ [e]⟩ rfl]

theorem store_container_info_err (db : DBState) (ci : ContainerInfo) (ts : Int)
    (hcol : ∃ q ∈ db.containers,
      q.container_name = ci.container_name ∧ q.scan_timestamp = ts) :
    store_container_info db ci ts =
      (db, some "UNIQUE constraint failed: containers.container_name, containers.scan_timestamp") := by
  have hsnap : ∀ st : DBState, st.containers = db.containers →
      applyOp st (.insertSnapshot (.ofInfo ci ts)) =
        .error "UNIQUE constraint failed: containers.container_name, containers.scan_timestamp" := by
    intro st hst
    have hcond : (st.containers.any (fun q =>
        decide (q.container_name = ci.container_name ∧ q.scan_timestamp = ts))) = true := by
      rw [hst]
      simp only [List.any_eq_true, decide_eq_true_eq]
      exact hcol
    simp [applyOp, hcond]
    rw [hst]
    exact hcol
  unfold store_container_info runTransaction
  rcases detected_changes_cases db ci ts with hdc | ⟨e, hdc⟩ <;> rw [hdc]
  · simp only [List.map_nil, List.nil_append, applyOps]
    rw [hsnap db rfl]
  · simp only [List.map_cons, List.map_nil, List.nil_append, List.singleton_append,
      applyOps]
    rw [show applyOp db (.insertEvent e) = .ok ⟨db.containers, db.history ++ [e]⟩ from rfl]
    show (match applyOps ⟨db.containers, db.history ++ [e]⟩
        [.insertSnapshot (.ofInfo ci ts)] with
      | .ok db' => (db', (none : Option String))
      | .error e => (db, some e)) = _
    simp only [applyOps]
    rw [hsnap ⟨db.containers, db.history ++ [e]⟩ rfl]

theorem store_container_info_snd_eq_none_iff (db : DBState) (ci : ContainerInfo) (ts : Int) :
    (store_container_info db ci ts).2 = none ↔
      ∀ q ∈ db.containers, ¬(q.container_name = ci.container_name ∧ q.scan_timestamp = ts) := by
  by_cases hcol : ∃ q ∈ db.containers,
      q.container_name = ci.container_name ∧ q.scan_timestamp = ts
  · rw [store_container_info_err db ci ts hcol]
    refine iff_of_false (by simp) ?_
    obtain ⟨q, hq, hqp⟩ := hcol
    exact fun hall => hall q hq hqp
  · push_neg at hcol
    refine iff_of_true ?_ (fun q hq => by simpa using hcol q hq)
    rw [store_container_info_ok db ci ts (fun q hq => by simpa using hcol q hq)]

theorem store_container_info_wf (db : DBState) (ci : ContainerInfo) (ts : Int)
    (hwf : DBWellFormed db)
    (hok : (store_container_info db ci ts).2 = none) :
    DBWellFormed (store_container_info db ci ts).1 := by
  have hfresh := (store_container_info_snd_eq_none_iff db ci ts).mp hok
  rw [store_container_info_ok db ci ts hfresh]
  unfold DBWellFormed at hwf ⊢
  simp only [List.map_append, List.map_cons, List.map_nil]
  rw [List.nodup_append]
  refine ⟨hwf, List.nodup_singleton _, ?_⟩
  intro pr hpr hpr1
  simp only [ofInfo_container_name, ofInfo_scan_timestamp, List.mem_singleton] at hpr1
  obtain ⟨q, hq, hqe⟩ := List.mem_map.mp hpr
  subst hpr1
  obtain ⟨h1, h2⟩ := Prod.mk.injEq .. ▸ hqe
  exact hfresh q hq ⟨h1, h2⟩

/-! ### Lemmas about the read-side queries -/

theorem length_filterMap_eq_countP {α β : Type} (f : α → Option β) (l : List α) :
    (l.filterMap f).length = l.countP (fun a => (f a).isSome) := by
  induction l with
  | nil => simp
  | cons a as ih =>
    cases hfa : f a with
    | none => simp [List.filterMap_cons, hfa, List.countP_cons, ih]
    | some b => simp [List.filterMap_cons, hfa, List.countP_cons, ih]

theorem map_filterMap_eq_filter {α β : Type} (f : α → Option β) (g : β → α)
    (hfg : ∀ a b, f a = some b → g b = a) (l : List α) :
    (l.filterMap f).map g = l.filter (fun a => (f a).isSome) := by
  induction l with
  | nil => simp
  | cons a as ih =>
    cases hfa : f a with
    | none => simp [List.filterMap_cons, hfa, List.filter_cons, ih]
    | some b => simp [List.filterMap_cons, hfa, List.filter_cons, ih, hfg a b hfa]

theorem mem_get_recent_changes (db : DBState) (now hours : Int) (e : DigestChange) :
    e ∈ get_recent_changes db now hours ↔
      e ∈ db.history ∧ now - hours * 3600 < e.change_timestamp := by
  unfold get_recent_changes
  rw [(List.perm_insertionSort tsDesc _).mem_iff, List.mem_filter]
  simp

theorem sorted_get_recent_changes (db : DBState) (now hours : Int) :
    List.Sorted tsDesc (get_recent_changes db now hours) :=
  List.sorted_insertionSort tsDesc _

theorem get_latest_names (db : DBState) :
    (get_latest_containers db).map (·.container_name) =
      (List.insertionSort nameLe ((db.containers.map (·.container_name)).dedup)).filter
        (fun n => (latestFor db.containers n).isSome) := by
  unfold get_latest_containers
  rw [List.map_map]
  exact map_filterMap_eq_filter _ _
    (fun n r h => (latestFor_isMostRecent db.containers n r h).2.1) _

theorem get_latest_names_nodup (db : DBState) :
    ((get_latest_containers db).map (·.container_name)).Nodup := by
  rw [get_latest_names]
  exact List.Nodup.filter _
    (((List.perm_insertionSort _ _).nodup_iff).mpr (List.nodup_dedup _))

theorem get_latest_nodup (db : DBState) : (get_latest_containers db).Nodup :=
  (get_latest_names_nodup db).of_map

theorem find?_name_eq_some (l : List ContainerInfo)
    (hn : (l.map (·.container_name)).Nodup) (n : String) (p : ContainerInfo)
    (hp : p ∈ l) (hname : p.container_name = n) :
    l.find? (fun q => decide (q.container_name = n)) = some p := by
  cases hf : l.find? (fun q => decide (q.container_name = n)) with
  | none =>
    exfalso
    have := List.find?_eq_none.mp hf p hp
    simp [hname] at this
  | some q =>
    have hqmem := List.mem_of_find?_eq_some hf
    have hqn : q.container_name = n := by simpa using List.find?_some hf
    have : q = p := List.inj_on_of_nodup_map hn hqmem hp (by rw [hqn, hname])
    rw [this]

/-! ### Lemmas about the tracker loops -/

theorem nwBool_eq (previous : List ContainerInfo) (c : ContainerInfo) :
    nwBool (fun name => previous.find? (fun p => decide (p.container_name = name))) c =
      decide (IsNewName previous c) := by
  unfold nwBool
  dsimp only
  cases hf : previous.find? (fun p => decide (p.container_name = c.container_name)) with
  | none =>
    show (true : Bool) = decide (IsNewName previous c)
    refine (decide_eq_true ?_).symm
    intro p hp
    have := List.find?_eq_none.mp hf p hp
    simpa using this
  | some q =>
    show (false : Bool) = decide (IsNewName previous c)
    refine (decide_eq_false ?_).symm
    intro hall
    exact hall q (List.mem_of_find?_eq_some hf) (by simpa using List.find?_some hf)

theorem chBool_eq (previous : List ContainerInfo)
    (hn : (previous.map (·.container_name)).Nodup) (c : ContainerInfo) :
    chBool (fun name => previous.find? (fun p => decide (p.container_name = name))) c =
      decide (IsChangedName previous c) := by
  unfold chBool
  dsimp only
  cases hf : previous.find? (fun p => decide (p.container_name = c.container_name)) with
  | none =>
    show (false : Bool) = decide (IsChangedName previous c)
    refine (decide_eq_false ?_).symm
    rintro ⟨p, hp, hpn, _⟩
    have := List.find?_eq_none.mp hf p hp
    simp [hpn] at this
  | some q =>
    have hqmem := List.mem_of_find?_eq_some hf
    have hqn : q.container_name = c.container_name := by simpa using List.find?_some hf
    show decide (q.digest ≠ c.digest) = decide (IsChangedName previous c)
    rw [decide_eq_decide]
    constructor
    · intro hd
      exact ⟨q, hqmem, hqn, hd⟩
    · rintro ⟨p, hp, hpn, hpd⟩
      have hpq : p = q := List.inj_on_of_nodup_map hn hp hqmem (by rw [hpn, hqn])
      rw [← hpq]
      exact hpd

theorem scanLoop_ok (lookup : String → Option ContainerInfo) (ts : Int)
    (current : List ContainerInfo) :
    ∀ db : DBState,
      (∀ q ∈ db.containers, q.scan_timestamp = ts →
        q.container_name ∉ current.map (·.container_name)) →
      (current.map (·.container_name)).Nodup →
      ∃ hist, scanLoop lookup ts db current =
        .ok (⟨db.containers ++ current.map (fun c => SnapshotRow.ofInfo c ts), hist⟩,
          current.map (·.container_name),
          (current.filter (chBool lookup)).map (·.container_name),
          (current.filter (nwBool lookup)).map (·.container_name)) := by
  induction current with
  | nil =>
    intro db hfr hnd
    exact ⟨db.history, by simp [scanLoop]⟩
  | cons c rest ih =>
    intro db hfr hnd
    have hfresh : ∀ q ∈ db.containers,
        ¬(q.container_name = c.container_name ∧ q.scan_timestamp = ts) := by
      rintro q hq ⟨hqn, hqt⟩
      exact hfr q hq hqt (by simp [hqn])
    have hstore := store_container_info_ok db c ts hfresh
    have hnd' : (rest.map (·.container_name)).Nodup := (List.nodup_cons.mp hnd).2
    have hcn : c.container_name ∉ rest.map (·.container_name) :=
      (List.nodup_cons.mp hnd).1
    obtain ⟨hist, hloop⟩ := ih
      ⟨db.containers ++ [SnapshotRow.ofInfo c ts],
        db.history ++ detected_changes db c ts⟩
      (by
        intro q hq hqt
        rcases List.mem_append.mp hq with hq | hq
        · exact fun hmem => hfr q hq hqt (by simp [hmem])
        · simp only [List.mem_singleton] at hq
          subst hq
          simpa using hcn)
      hnd'
    refine ⟨hist, ?_⟩
    simp only [scanLoop, hstore, hloop]
    cases hl : lookup c.container_name with
    | none =>
      simp [List.filter_cons, chBool, nwBool, hl, List.map_cons]
    | some prev =>
      by_cases hd : prev.digest = c.digest
      · simp [List.filter_cons, chBool, nwBool, hl, hd]
      · simp [List.filter_cons, chBool, nwBool, hl, hd]

theorem length_filter_partition {α : Type} (p q : α → Bool) (l : List α) :
    (l.filter (fun c => p c && !q c)).length + (l.filter (fun c => !p c)).length +
      (l.filter (fun c => p c && q c)).length = l.length := by
  induction l with
  | nil => simp
  | cons a as ih =>
    cases hp : p a <;> cases hq : q a <;>
      simp [List.filter_cons, hp, hq] <;> omega

theorem classify_eq_filters (recent : List DigestChange) (cutoff : Int)
    (cs : List ContainerInfo) :
    classifyContainers recent cutoff cs =
      (cs.filter (fun c =>
        (recent.filter (fun e => decide (e.container_name = c.container_name))).isEmpty &&
          !(decide (cutoff < c.created_at))),
       (cs.filter (fun c =>
        !(recent.filter (fun e => decide (e.container_name = c.container_name))).isEmpty)).map
          (fun c => (c, recent.filter (fun e => decide (e.container_name = c.container_name)))),
       cs.filter (fun c =>
        (recent.filter (fun e => decide (e.container_name = c.container_name))).isEmpty &&
          decide (cutoff < c.created_at))) := by
  induction cs with
  | nil => simp [classifyContainers]
  | cons c rest ih =>
    simp only [classifyContainers, ih]
    by_cases hch : recent.filter (fun e => decide (e.container_name = c.container_name)) = []
    · by_cases hnew : cutoff < c.created_at
      · simp [List.filter_cons, hch, hnew]
      · simp [List.filter_cons, hch, hnew]
    · simp [List.filter_cons, hch, List.isEmpty_iff, if_neg hch]

/-! ### Claim theorems -/

/-- C9: for every image reference string, `_parse_image_name` returns
the substring before the first `@` paired with the sentinel tag
`"digest"` when the string contains `@sha256:`; otherwise the split on
the last colon into `(name, tag)` when the string contains `:` (so that
`name ++ ":" ++ tag` restores the input and the tag is colon-free);
otherwise `(string, "latest")`; and `("unknown", "unknown")` for the
empty string — with the five concrete round-trip cases. -/
theorem parse_image_name_spec :
    (∀ s : String, s ≠ "" → pyContains "@sha256:" s = true →
      parse_image_name s = (⟨s.data.takeWhile (fun c => decide (c ≠ '@'))⟩, "digest")) ∧
    (∀ s : String, s ≠ "" → pyContains "@sha256:" s = false → ':' ∈ s.data →
      (parse_image_name s).1.data ++ ':' :: (parse_image_name s).2.data = s.data ∧
      ':' ∉ (parse_image_name s).2.data) ∧
    (∀ s : String, s ≠ "" → pyContains "@sha256:" s = false → ':' ∉ s.data →
      parse_image_name s = (s, "latest")) ∧
    parse_image_name "" = ("unknown", "unknown") ∧
    parse_image_name "nginx:latest" = ("nginx", "latest") ∧
    parse_image_name "nginx" = ("nginx", "latest") ∧
    parse_image_name "registry.com/nginx:1.21" = ("registry.com/nginx", "1.21") ∧
    parse_image_name "nginx@sha256:abc123" = ("nginx", "digest") := by
  refine ⟨?_, ?_, ?_, by decide, by decide, by decide, by decide, by decide⟩
  · intro s hns hc
    unfold parse_image_name
    rw [if_neg hns, if_pos hc, headD_splitOnChar]
  · intro s hns hc hcol
    cases hbl : breakOnLast ':' s.data with
    | none => exact absurd hcol (fun hmem =>
        ((breakOnLast_eq_none ':' s.data).mp hbl) hmem)
    | some pr =>
      obtain ⟨a, b⟩ := pr
      obtain ⟨hs, hnb⟩ := breakOnLast_eq_some ':' s.data a b hbl
      have hp : parse_image_name s = (⟨a⟩, ⟨b⟩) := by
        simp [parse_image_name, hns, hc, hbl]
      rw [hp]
      exact ⟨hs.symm, hnb⟩
  · intro s hns hc hcol
    have hbl : breakOnLast ':' s.data = none := (breakOnLast_eq_none ':' s.data).mpr hcol
    simp [parse_image_name, hns, hc, hbl]

/-- Witness for C9 at the digest-pinned reference. -/
theorem parse_image_name_spec_witness :
    ("nginx@sha256:abc123" : String) ≠ "" ∧
    pyContains "@sha256:" "nginx@sha256:abc123" = true ∧
    parse_image_name "nginx@sha256:abc123" =
      (⟨("nginx@sha256:abc123" : String).data.takeWhile (fun c => decide (c ≠ '@'))⟩,
        "digest") :=
  ⟨by decide, by decide,
    parse_image_name_spec.1 "nginx@sha256:abc123" (by decide) (by decide)⟩

/-- C10: `_parse_docker_timestamp` is total — every input yields a
datetime: either the preprocessed string parses under the collapsed ISO
format and that value is returned, or the current time `now` is
returned, so an unparseable reported creation time yields `now` (making
the container look newly created downstream). -/
theorem parse_docker_timestamp_total (s : String) (now : PDateTime) :
    (parse_docker_timestamp s now = now ∨
      ∃ dt, strptimeISO (preprocessTs s) = some dt ∧ parse_docker_timestamp s now = dt) ∧
    (strptimeISO (preprocessTs s) = none → parse_docker_timestamp s now = now) := by
  unfold parse_docker_timestamp
  cases h : strptimeISO (preprocessTs s) with
  | none => exact ⟨Or.inl rfl, fun _ => rfl⟩
  | some dt => exact ⟨Or.inr ⟨dt, rfl, rfl⟩, fun hc => Option.noConfusion hc⟩

/-- Witness for C10 at an unparseable timestamp string. -/
theorem parse_docker_timestamp_total_witness :
    strptimeISO (preprocessTs "not-a-timestamp") = none ∧
    parse_docker_timestamp "not-a-timestamp" ⟨2026, 10, 12, 0, 0, 0⟩ =
      ⟨2026, 10, 12, 0, 0, 0⟩ :=
  ⟨by decide,
    (parse_docker_timestamp_total "not-a-timestamp" ⟨2026, 10, 12, 0, 0, 0⟩).2 (by decide)⟩

/-- C2: `scan_containers` returns exactly the containers whose
extraction succeeds (a failing container is skipped without aborting
the batch), every returned snapshot has a non-empty digest, a container
with no resolvable digest is excluded, and a failing container in the
middle of a batch leaves the rest of the scan intact. -/
theorem scan_failure_isolation (now : PDateTime) (raws : List RawContainer) :
    (∀ ci, ci ∈ scan_containers now raws ↔
      ∃ raw ∈ raws, extract_container_info now raw = some ci) ∧
    (∀ ci ∈ scan_containers now raws, ci.digest ≠ "") ∧
    (∀ raw, get_image_digest raw = none → extract_container_info now raw = none) ∧
    (∀ pre bad post, extract_container_info now bad = none →
      scan_containers now (pre ++ bad :: post) =
        scan_containers now pre ++ scan_containers now post) := by
  have hdig : ∀ raw ci, extract_container_info now raw = some ci → ci.digest ≠ "" := by
    intro raw ci hex
    unfold extract_container_info at hex
    split at hex
    · exact Option.noConfusion hex
    · cases hgd : get_image_digest raw with
      | none => rw [hgd] at hex; exact Option.noConfusion hex
      | some d =>
        rw [hgd] at hex
        dsimp only at hex
        split at hex
        · exact Option.noConfusion hex
        · next hne =>
          have hdeq : ci.digest = d := by rw [← Option.some.inj hex]
          rw [hdeq]
          intro hd
          rw [hd] at hne
          exact hne rfl
  refine ⟨fun ci => List.mem_filterMap, ?_, ?_, ?_⟩
  · intro ci hci
    obtain ⟨raw, _, hex⟩ := List.mem_filterMap.mp hci
    exact hdig raw ci hex
  · intro raw hgd
    unfold extract_container_info
    split
    · rfl
    · rw [hgd]
  · intro pre bad post h
    simp [scan_containers, List.filterMap_append, List.filterMap_cons, h]

/-- Witness for C2: a broken container in the middle of a scan is
dropped and the others survive. -/
theorem scan_failure_isolation_witness :
    extract_container_info ⟨2026, 1, 1, 0, 0, 0⟩ exRawBroken = none ∧
    scan_containers ⟨2026, 1, 1, 0, 0, 0⟩ ([exRaw] ++ exRawBroken :: [exRaw]) =
      scan_containers ⟨2026, 1, 1, 0, 0, 0⟩ [exRaw] ++
        scan_containers ⟨2026, 1, 1, 0, 0, 0⟩ [exRaw] :=
  ⟨by decide,
    (scan_failure_isolation ⟨2026, 1, 1, 0, 0, 0⟩ []).2.2.2
      [exRaw] exRawBroken [exRaw] (by decide)⟩

/-- C1: on every successful `store_container_info` call against a
well-formed store, a digest-change event is appended exactly when a
most-recent prior snapshot for the container name exists with a
different digest (with `old_digest` the prior digest and `new_digest`
the incoming digest, at the call's scan timestamp); no event is created
on first sighting of a name; a snapshot row is always appended (so
repeated unchanged stores at distinct timestamps add one row each and
zero events); and well-formedness is preserved. -/
theorem put_snapshot_change_event_iff (db : DBState) (ci : ContainerInfo) (ts : Int)
    (hwf : DBWellFormed db) (hok : (store_container_info db ci ts).2 = none) :
    ((∃ p, MostRecentPrior db.containers ci.container_name p ∧ p.digest ≠ ci.digest ∧
        (store_container_info db ci ts).1.history =
          db.history ++ [⟨ci.container_name, p.digest, ci.digest, ts⟩]) ∨
      ((¬∃ p, MostRecentPrior db.containers ci.container_name p ∧ p.digest ≠ ci.digest) ∧
        (store_container_info db ci ts).1.history = db.history)) ∧
    (store_container_info db ci ts).1.containers =
      db.containers ++ [SnapshotRow.ofInfo ci ts] ∧
    ((∀ r ∈ db.containers, r.container_name ≠ ci.container_name) →
      (store_container_info db ci ts).1.history = db.history) ∧
    DBWellFormed (store_container_info db ci ts).1 := by
  have hfresh := (store_container_info_snd_eq_none_iff db ci ts).mp hok
  have hwf' := store_container_info_wf db ci ts hwf hok
  rw [store_container_info_ok db ci ts hfresh] at hwf' ⊢
  refine ⟨?_, rfl, ?_, hwf'⟩
  · cases hl : latestFor db.containers ci.container_name with
    | none =>
      refine Or.inr ⟨?_, by simp [detected_changes, hl]⟩
      rintro ⟨p, hp, _⟩
      exact (latestFor_eq_none_iff db.containers ci.container_name).mp hl p hp.1 hp.2.1
    | some prev =>
      have hprev := latestFor_isMostRecent db.containers ci.container_name prev hl
      by_cases hd : prev.digest = ci.digest
      · refine Or.inr ⟨?_, by simp [detected_changes, hl, hd]⟩
        rintro ⟨p, hpMR, hpd⟩
        rw [mostRecentPrior_unique hwf hpMR hprev] at hpd
        exact hpd hd
      · exact Or.inl ⟨prev, hprev, hd, by simp [detected_changes, hl, hd]⟩
  · intro hall
    cases hl : latestFor db.containers ci.container_name with
    | none => simp [detected_changes, hl]
    | some prev =>
      have hprev := latestFor_isMostRecent db.containers ci.container_name prev hl
      exact absurd hprev.2.1 (hall prev hprev.1)

/-- Witness for C1: storing a changed digest against a one-row store
succeeds and appends the snapshot row. -/
theorem put_snapshot_change_event_iff_witness :
    DBWellFormed exDb ∧ (store_container_info exDb exInfoChanged 10).2 = none ∧
    (store_container_info exDb exInfoChanged 10).1.containers =
      exDb.containers ++ [SnapshotRow.ofInfo exInfoChanged 10] :=
  ⟨by decide, by decide,
    (put_snapshot_change_event_iff exDb exInfoChanged 10 (by decide) (by decide)).2.1⟩

/-- C4: `store_container_info` is transactional — either it succeeds
and the snapshot row together with the detected change events is
committed as one unit, or it reports a storage error and the store is
exactly as before (rolled back); in no case is the history extended
while the snapshot insert is missing. -/
theorem store_container_info_transactional (db : DBState) (ci : ContainerInfo) (ts : Int) :
    (((store_container_info db ci ts).2 = none ∧
        (store_container_info db ci ts).1.containers =
          db.containers ++ [SnapshotRow.ofInfo ci ts] ∧
        (store_container_info db ci ts).1.history =
          db.history ++ detected_changes db ci ts) ∨
      ((store_container_info db ci ts).2 ≠ none ∧
        (store_container_info db ci ts).1 = db)) ∧
    ¬((store_container_info db ci ts).1.history ≠ db.history ∧
        (store_container_info db ci ts).1.containers = db.containers) := by
  by_cases hcol : ∃ q ∈ db.containers,
      q.container_name = ci.container_name ∧ q.scan_timestamp = ts
  · rw [store_container_info_err db ci ts hcol]
    refine ⟨Or.inr ⟨by simp, rfl⟩, ?_⟩
    rintro ⟨hh, _⟩
    exact hh rfl
  · have hfresh : ∀ q ∈ db.containers,
        ¬(q.container_name = ci.container_name ∧ q.scan_timestamp = ts) :=
      fun q hq h => hcol ⟨q, hq, h⟩
    rw [store_container_info_ok db ci ts hfresh]
    refine ⟨Or.inl ⟨rfl, rfl, rfl⟩, ?_⟩
    rintro ⟨_, hc⟩
    have hlen := congrArg List.length hc
    simp at hlen

/-- Witness for C4: the success side of the disjunction at a concrete
store. -/
theorem store_container_info_transactional_witness :
    (store_container_info exDb exInfoChanged 10).2 = none ∧
    (store_container_info exDb exInfoChanged 10).1.containers =
      exDb.containers ++ [SnapshotRow.ofInfo exInfoChanged 10] ∧
    (store_container_info exDb exInfoChanged 10).1.history =
      exDb.history ++ detected_changes exDb exInfoChanged 10 :=
  ((store_container_info_transactional exDb exInfoChanged 10).1).resolve_right (by decide)

/-- C6 counterexample: an event whose timestamp is exactly `now -
window` lies inside the closed interval `[now - window, now]` that the
claim promises, but `get_recent_changes` (which filters strictly)
excludes it. -/
theorem get_recent_changes_boundary_cex :
    ((3600 : Int) - 1 * 3600 ≤ 0 ∧ (0 : Int) ≤ 3600) ∧
    (⟨"web", "sha256:a", "sha256:b", 0⟩ : DigestChange) ∈
      (⟨[], [⟨"web", "sha256:a", "sha256:b", 0⟩]⟩ : DBState).history ∧
    (⟨"web", "sha256:a", "sha256:b", 0⟩ : DigestChange) ∉
      get_recent_changes ⟨[], [⟨"web", "sha256:a", "sha256:b", 0⟩]⟩ 3600 1 := by
  decide

/-- C6 (amended): `get_recent_changes` returns exactly the events whose
`change_timestamp` is strictly greater than `now - hours*3600` (the
boundary instant is excluded and no upper bound at `now` is applied),
ordered newest first. -/
theorem get_recent_changes_window (db : DBState) (now hours : Int) :
    (∀ e : DigestChange, e ∈ get_recent_changes db now hours ↔
      e ∈ db.history ∧ now - hours * 3600 < e.change_timestamp) ∧
    List.Sorted tsDesc (get_recent_changes db now hours) :=
  ⟨mem_get_recent_changes db now hours, sorted_get_recent_changes db now hours⟩

/-- Witness for C6 at a one-event store. -/
theorem get_recent_changes_window_witness :
    (⟨"web", "sha256:a", "sha256:b", 50⟩ : DigestChange) ∈
        get_recent_changes ⟨[], [⟨"web", "sha256:a", "sha256:b", 50⟩]⟩ 3600 1 ↔
      (⟨"web", "sha256:a", "sha256:b", 50⟩ : DigestChange) ∈
          (⟨[], [⟨"web", "sha256:a", "sha256:b", 50⟩]⟩ : DBState).history ∧
        (3600 : Int) - 1 * 3600 < 50 :=
  (get_recent_changes_window ⟨[], [⟨"web", "sha256:a", "sha256:b", 50⟩]⟩ 3600 1).1
    ⟨"web", "sha256:a", "sha256:b", 50⟩

theorem check_for_updates_eq_nil (db : DBState)
    (resolver : String → String → Option String)
    (hnil : get_latest_containers db = []) :
    check_for_updates db resolver =
      { success := true, total_containers := 0, updates_available := 0,
        containers := [], errors := [] } := by
  simp only [check_for_updates]
  rw [hnil]
  rfl

theorem check_for_updates_eq (db : DBState)
    (resolver : String → String → Option String)
    (hne : get_latest_containers db ≠ []) :
    check_for_updates db resolver =
      { success := true,
        total_containers := (get_latest_containers db).length,
        updates_available :=
          ((get_latest_containers db).map (check_container_updates resolver)).countP
            (·.update_available),
        containers := (get_latest_containers db).map (check_container_updates resolver),
        errors :=
          ((get_latest_containers db).map (check_container_updates resolver)).filterMap
            (fun u =>
              match u.error with
              | some e => if e.isEmpty then none else some (u.container_name ++ ": " ++ e)
              | none => none) } := by
  simp only [check_for_updates]
  rw [if_neg (fun h => hne (List.isEmpty_iff.mp h))]

/-- C3: `check_for_updates` processes every latest snapshot (the result
items are exactly the per-container checks, in order), reports overall
success, marks an unresolved remote digest with
`update_available = false` and the explanatory non-empty error string,
sets `update_available` exactly when the remote digest resolved and
differs from the stored digest, and collects exactly one aggregate
error entry per unresolved container. -/
theorem check_for_updates_item_errors (db : DBState)
    (resolver : String → String → Option String) :
    (check_for_updates db resolver).success = true ∧
    (check_for_updates db resolver).containers =
      (get_latest_containers db).map (check_container_updates resolver) ∧
    (check_for_updates db resolver).total_containers =
      (get_latest_containers db).length ∧
    (∀ c ∈ get_latest_containers db, resolver c.image_name c.image_tag = none →
      (check_container_updates resolver c).update_available = false ∧
      (check_container_updates resolver c).error = some "Could not fetch remote digest") ∧
    (∀ c ∈ get_latest_containers db, ∀ rd, resolver c.image_name c.image_tag = some rd →
      ((check_container_updates resolver c).update_available = true ↔ c.digest ≠ rd) ∧
      (check_container_updates resolver c).error = none) ∧
    (check_for_updates db resolver).errors.length =
      (get_latest_containers db).countP
        (fun c => (resolver c.image_name c.image_tag).isNone) ∧
    (check_for_updates db resolver).updates_available =
      (get_latest_containers db).countP (fun c =>
        match resolver c.image_name c.image_tag with
        | some rd => c.digest != rd
        | none => false) := by
  have hitem_none : ∀ c : ContainerInfo, resolver c.image_name c.image_tag = none →
      (check_container_updates resolver c).update_available = false ∧
      (check_container_updates resolver c).error = some "Could not fetch remote digest" := by
    intro c hr
    simp [check_container_updates, hr]
  have hitem_some : ∀ (c : ContainerInfo) (rd : String),
      resolver c.image_name c.image_tag = some rd →
      ((check_container_updates resolver c).update_available = true ↔ c.digest ≠ rd) ∧
      (check_container_updates resolver c).error = none := by
    intro c rd hr
    simp [check_container_updates, hr, bne_iff_ne]
  by_cases hnil : get_latest_containers db = []
  · rw [check_for_updates_eq_nil db resolver hnil, hnil]
    exact ⟨rfl, rfl, rfl, by simp, by simp, rfl, rfl⟩
  · rw [check_for_updates_eq db resolver hnil]
    refine ⟨rfl, rfl, rfl,
      fun c _ hr => hitem_none c hr, fun c _ rd hr => hitem_some c rd hr, ?_, ?_⟩
    · show (((get_latest_containers db).map (check_container_updates resolver)).filterMap
        _).length = _
      rw [List.filterMap_map, length_filterMap_eq_countP]
      apply List.countP_congr
      intro c _
      cases hr : resolver c.image_name c.image_tag with
      | none =>
        simp [Function.comp, check_container_updates, hr]
        decide
      | some rd => simp [Function.comp, check_container_updates, hr]
    · show ((get_latest_containers db).map (check_container_updates resolver)).countP
        (·.update_available) = _
      rw [List.countP_map]
      apply List.countP_congr
      intro c _
      cases hr : resolver c.image_name c.image_tag with
      | none => simp [Function.comp, check_container_updates, hr]
      | some rd => simp [Function.comp, check_container_updates, hr]

/-- Witness for C3: in a three-container store whose resolver fails for
one image, the failing item reports no update and the explanatory
error. -/
theorem check_for_updates_item_errors_witness :
    exInfoC ∈ get_latest_containers exDb3 ∧
    exResolver exInfoC.image_name exInfoC.image_tag = none ∧
    ((check_container_updates exResolver exInfoC).update_available = false ∧
      (check_container_updates exResolver exInfoC).error =
        some "Could not fetch remote digest") :=
  ⟨by decide, by decide,
    (check_for_updates_item_errors exDb3 exResolver).2.2.2.1 exInfoC
      (by decide) (by decide)⟩

/-- C5: `scan_and_update` stores every scanned snapshot through the
history store at the one scan timestamp, classifies each scanned name
against the pre-scan latest-snapshot set as new (name absent), changed
(name present with differing digest) or unchanged (neither — the two
labelled classes are mutually exclusive), and returns the counts and
the name lists in its success result; a scan that finds zero containers
yields the success result whose rendered dictionary carries
`success = True` and all-zero counts. -/
theorem scan_and_update_classification (db : DBState) (current : List ContainerInfo)
    (ts : Int) (hnodup : (current.map (·.container_name)).Nodup)
    (hfresh : ∀ q ∈ db.containers, q.scan_timestamp ≠ ts) (hne : current ≠ []) :
    (scan_and_update db (.ok []) ts = (.okEmpty ts, db) ∧
      scanUpdateResultToPy (.okEmpty ts) =
        .dict [("success", .bool true), ("containers_scanned", .int 0),
          ("changes_detected", .int 0), ("new_containers", .int 0),
          ("scan_timestamp", .int ts)]) ∧
    (∃ dbf : DBState,
      scan_and_update db (.ok current) ts =
        (.ok current.length
          ((current.filter
            (fun c => decide (IsChangedName (get_latest_containers db) c))).length)
          ((current.filter
            (fun c => decide (IsNewName (get_latest_containers db) c))).length)
          ts
          (current.map (·.container_name))
          ((current.filter
            (fun c => decide (IsChangedName (get_latest_containers db) c))).map
              (·.container_name))
          ((current.filter
            (fun c => decide (IsNewName (get_latest_containers db) c))).map
              (·.container_name)),
         dbf) ∧
      dbf.containers = db.containers ++ current.map (fun c => SnapshotRow.ofInfo c ts)) ∧
    (∀ c ∈ current, ¬(IsNewName (get_latest_containers db) c ∧
      IsChangedName (get_latest_containers db) c)) := by
  refine ⟨⟨rfl, rfl⟩, ?_, ?_⟩
  · obtain ⟨c, rest, rfl⟩ := List.exists_cons_of_ne_nil hne
    obtain ⟨hist, hloop⟩ := scanLoop_ok
      (fun name => (get_latest_containers db).find?
        (fun p => decide (p.container_name = name)))
      ts (c :: rest) db
      (fun q hq hqt => absurd hqt (hfresh q hq))
      hnodup
    have hchf : (c :: rest).filter (chBool (fun name => (get_latest_containers db).find?
          (fun p => decide (p.container_name = name)))) =
        (c :: rest).filter (fun x => decide (IsChangedName (get_latest_containers db) x)) :=
      List.filter_congr
        (fun x _ => chBool_eq (get_latest_containers db) (get_latest_names_nodup db) x)
    have hnwf : (c :: rest).filter (nwBool (fun name => (get_latest_containers db).find?
          (fun p => decide (p.container_name = name)))) =
        (c :: rest).filter (fun x => decide (IsNewName (get_latest_containers db) x)) :=
      List.filter_congr (fun x _ => nwBool_eq (get_latest_containers db) x)
    refine ⟨⟨db.containers ++ (c :: rest).map (fun x => SnapshotRow.ofInfo x ts), hist⟩,
      ?_, rfl⟩
    show (match scanLoop (fun name => (get_latest_containers db).find?
        (fun p => decide (p.container_name = name))) ts db (c :: rest) with
      | .error (e, dbe) => (ScanUpdateResult.err e ts, dbe)
      | .ok (dbf, sc, ch, nw) =>
        (ScanUpdateResult.ok (c :: rest).length ch.length nw.length ts sc ch nw, dbf)) = _
    rw [hloop]
    simp only [hchf, hnwf, List.length_map]
  · rintro c _ ⟨hnew, p, hp, hpn, _⟩
    exact hnew p hp hpn

/-- Witness for C5: the zero-container success result and the
exclusivity of the new/changed classes at a concrete scan. -/
theorem scan_and_update_classification_witness :
    scan_and_update exDb (.ok []) 5 = (.okEmpty 5, exDb) ∧
    (∀ c ∈ [exInfoChanged, exInfoB], ¬(IsNewName (get_latest_containers exDb) c ∧
      IsChangedName (get_latest_containers exDb) c)) :=
  ⟨(scan_and_update_classification exDb [exInfoChanged, exInfoB] 5
      (by decide) (by decide) (by decide)).1.1,
    (scan_and_update_classification exDb [exInfoChanged, exInfoB] 5
      (by decide) (by decide) (by decide)).2.2⟩

theorem hasWindowEvent_iff_filter_ne (db : DBState) (now hours_back : Int)
    (c : ContainerInfo) :
    ((get_recent_changes db now hours_back).filter
        (fun e => decide (e.container_name = c.container_name))).isEmpty = false ↔
      HasWindowEvent db now hours_back c := by
  rw [List.isEmpty_eq_false, Ne, List.filter_eq_nil_iff]
  push_neg
  simp only [decide_eq_true_eq]
  constructor
  · rintro ⟨e, he, hname⟩
    obtain ⟨hmem, hwnd⟩ := (mem_get_recent_changes db now hours_back e).mp he
    exact ⟨e, hmem, hname, hwnd⟩
  · rintro ⟨e, hmem, hname, hwnd⟩
    exact ⟨e, (mem_get_recent_changes db now hours_back e).mpr ⟨hmem, hwnd⟩, hname⟩

theorem compare_with_previous_eq (db : DBState) (now hours_back : Int) :
    compare_with_previous db now hours_back =
      { success := true
        comparison_period_hours := hours_back
        total_containers := (get_latest_containers db).length
        unchanged := (get_latest_containers db).filter (fun c =>
          ((get_recent_changes db now hours_back).filter
            (fun e => decide (e.container_name = c.container_name))).isEmpty &&
          !(decide (now - hours_back * 3600 < c.created_at)))
        changed := ((get_latest_containers db).filter (fun c =>
          !((get_recent_changes db now hours_back).filter
            (fun e => decide (e.container_name = c.container_name))).isEmpty)).map
          (fun c => (c, (get_recent_changes db now hours_back).filter
            (fun e => decide (e.container_name = c.container_name))))
        new_containers := (get_latest_containers db).filter (fun c =>
          ((get_recent_changes db now hours_back).filter
            (fun e => decide (e.container_name = c.container_name))).isEmpty &&
          decide (now - hours_back * 3600 < c.created_at))
        total_changes := (get_recent_changes db now hours_back).length } := by
  simp only [compare_with_previous]
  rw [classify_eq_filters]

/-- C8: `compare_with_previous` partitions the current latest snapshots
into three disjoint groups covering all of them — changed (at least one
event in the window), new (no event and created after the cutoff) and
unchanged (neither) — and a container with both an event in the window
and a recent creation time is classified as changed, not new. -/
theorem compare_with_previous_partition (db : DBState) (now hours_back : Int) :
    (compare_with_previous db now hours_back).unchanged.length +
      (compare_with_previous db now hours_back).changed.length +
      (compare_with_previous db now hours_back).new_containers.length =
      (get_latest_containers db).length ∧
    (∀ c ∈ get_latest_containers db,
      (c ∈ (compare_with_previous db now hours_back).changed.map (·.1) ↔
        HasWindowEvent db now hours_back c) ∧
      (c ∈ (compare_with_previous db now hours_back).new_containers ↔
        (¬HasWindowEvent db now hours_back c ∧ now - hours_back * 3600 < c.created_at)) ∧
      (c ∈ (compare_with_previous db now hours_back).unchanged ↔
        (¬HasWindowEvent db now hours_back c ∧
          ¬(now - hours_back * 3600 < c.created_at)))) ∧
    (∀ c, (c ∈ (compare_with_previous db now hours_back).unchanged ∨
        c ∈ (compare_with_previous db now hours_back).changed.map (·.1) ∨
        c ∈ (compare_with_previous db now hours_back).new_containers) →
      c ∈ get_latest_containers db) ∧
    (∀ c ∈ get_latest_containers db, HasWindowEvent db now hours_back c →
      now - hours_back * 3600 < c.created_at →
      (c ∈ (compare_with_previous db now hours_back).changed.map (·.1) ∧
        c ∉ (compare_with_previous db now hours_back).new_containers)) := by
  have hfst : ((compare_with_previous db now hours_back).changed.map (·.1)) =
      (get_latest_containers db).filter (fun c =>
        !((get_recent_changes db now hours_back).filter
          (fun e => decide (e.container_name = c.container_name))).isEmpty) := by
    rw [compare_with_previous_eq]
    dsimp only
    rw [List.map_map]
    exact List.map_id _
  have hempty_iff : ∀ c : ContainerInfo,
      ((get_recent_changes db now hours_back).filter
        (fun e => decide (e.container_name = c.container_name))).isEmpty = true ↔
      ¬HasWindowEvent db now hours_back c := by
    intro c
    rw [← hasWindowEvent_iff_filter_ne db now hours_back c]
    cases ((get_recent_changes db now hours_back).filter
      (fun e => decide (e.container_name = c.container_name))).isEmpty <;> simp
  have hmem_changed : ∀ c, c ∈ (compare_with_previous db now hours_back).changed.map (·.1) ↔
      (c ∈ get_latest_containers db ∧ HasWindowEvent db now hours_back c) := by
    intro c
    rw [hfst, List.mem_filter, Bool.not_eq_true', hasWindowEvent_iff_filter_ne]
  have hmem_new : ∀ c, c ∈ (compare_with_previous db now hours_back).new_containers ↔
      (c ∈ get_latest_containers db ∧ ¬HasWindowEvent db now hours_back c ∧
        now - hours_back * 3600 < c.created_at) := by
    intro c
    rw [compare_with_previous_eq]
    dsimp only
    rw [List.mem_filter, Bool.and_eq_true, hempty_iff, decide_eq_true_eq]
  have hmem_unch : ∀ c, c ∈ (compare_with_previous db now hours_back).unchanged ↔
      (c ∈ get_latest_containers db ∧ ¬HasWindowEvent db now hours_back c ∧
        ¬(now - hours_back * 3600 < c.created_at)) := by
    intro c
    rw [compare_with_previous_eq]
    dsimp only
    rw [List.mem_filter, Bool.and_eq_true, hempty_iff, Bool.not_eq_true',
      decide_eq_false_iff_not]
  refine ⟨?_, ?_, ?_, ?_⟩
  · rw [compare_with_previous_eq]
    dsimp only
    rw [List.length_map]
    exact length_filter_partition _ _ _
  · intro c hc
    exact ⟨by rw [hmem_changed]; exact (and_iff_right hc),
      by rw [hmem_new]; exact (and_iff_right hc),
      by rw [hmem_unch]; exact (and_iff_right hc)⟩
  · rintro c (hm | hm | hm)
    · exact ((hmem_unch c).mp hm).1
    · exact ((hmem_changed c).mp hm).1
    · exact ((hmem_new c).mp hm).1
  · intro c hc hev hcr
    exact ⟨(hmem_changed c).mpr ⟨hc, hev⟩,
      fun hm => ((hmem_new c).mp hm).2.1 hev⟩

/-- Witness for C8: a freshly created container with no events is
classified as new at a concrete store. -/
theorem compare_with_previous_partition_witness :
    exInfo ∈ get_latest_containers exDb ∧
    (exInfo ∈ (compare_with_previous exDb 100 1).new_containers ↔
      (¬HasWindowEvent exDb 100 1 exInfo ∧ (100 : Int) - 1 * 3600 < exInfo.created_at)) :=
  ⟨by decide,
    ((compare_with_previous_partition exDb 100 1).2.1 exInfo (by decide)).2.1⟩

/-- C7 counterexample: `initialize` returns a bare boolean and
`get_container_status` returns a bare list, so neither result is a
dictionary carrying the uniform `success` key — the claim that every
Tracker operation returns the uniform result shape is false. -/
theorem tracker_uniform_shape_cex :
    hasSuccessKey (trackerInitToPy true (.ok []) ⟨[], []⟩ 0) = false ∧
    hasSuccessKey (containerStatusToPy ⟨[], []⟩ (fun _ => false)) = false :=
  ⟨rfl, rfl⟩

/-- C7 (amended): every modelled Tracker operation converts expected
failures into in-band values rather than raising — a scan failure makes
`scan_and_update` return the `success = False` dictionary and
`initialize` return `False`, an unavailable runtime makes `initialize`
return `False` — and `scan_and_update`, `check_for_updates` and
`compare_with_previous` return dictionaries carrying the uniform
boolean `success` key, while `initialize` returns a bare boolean and
`get_container_status` a bare list. -/
theorem tracker_result_shapes (db : DBState)
    (scanRes : Except String (List ContainerInfo)) (ts : Int)
    (resolver : String → String → Option String) (now hours_back : Int)
    (avail : Bool) (probe : String → Bool) :
    hasSuccessKey (scanUpdateResultToPy (scan_and_update db scanRes ts).1) = true ∧
    hasSuccessKey (checkUpdatesResultToPy (check_for_updates db resolver) now) = true ∧
    hasSuccessKey (compareResultToPy (compare_with_previous db now hours_back)) = true ∧
    (∃ b, trackerInitToPy avail scanRes db ts = .bool b) ∧
    (∃ l, containerStatusToPy db probe = .list l) ∧
    (∀ e, scanRes = .error e → scan_and_update db scanRes ts = (.err e ts, db)) ∧
    (∀ e, scanRes = .error e → tracker_init avail scanRes db ts = (false, db)) ∧
    (avail = false → tracker_init avail scanRes db ts = (false, db)) := by
  refine ⟨?_, rfl, rfl, ⟨_, rfl⟩, ⟨_, rfl⟩, ?_, ?_, ?_⟩
  · cases (scan_and_update db scanRes ts).1 <;> rfl
  · intro e he
    subst he
    rfl
  · intro e he
    subst he
    cases avail <;> rfl
  · intro ha
    subst ha
    rfl

/-- Witness for C7 at a failing scan. -/
theorem tracker_result_shapes_witness :
    scan_and_update exDb (.error "boom") 7 = (.err "boom" 7, exDb) ∧
    tracker_init true (.error "boom") exDb 7 = (false, exDb) :=
  ⟨(tracker_result_shapes exDb (.error "boom") 7 (fun _ _ => none) 0 0 true
      (fun _ => false)).2.2.2.2.2.1 "boom" rfl,
    (tracker_result_shapes exDb (.error "boom") 7 (fun _ _ => none) 0 0 true
      (fun _ => false)).2.2.2.2.2.2.1 "boom" rfl⟩

end Dockge
